import Mathlib

/-!
Shallow embedding of `aws_sso_config_builder/gen_config.py`.

The program drives an OAuth2 device-authorization flow, enumerates
accounts and roles, and renders AWS CLI config blocks.  External
collaborators (the keyring secret store, the OIDC/SSO network APIs, the
JSON codec, the progress renderer) are modelled at their interfaces:
network calls become `Except`-valued functions collected in an
environment structure, the persisted keyring value becomes the result of
reading-and-decoding it, and wall-clock time becomes an integer Unix
timestamp passed explicitly.
-/

namespace GenConfig

/-- JSON scalar values as they can appear in the cached client
registration object.  (The cached value written by the program is a flat
object of strings and numbers; numbers are modelled as integers.) -/
inductive JVal
  | jstr (s : String)
  | jnum (n : Int)
  | jnull
deriving Repr, DecidableEq

/-- Dictionary lookup in a JSON object modelled as an association list
(first binding wins, as in a Python dict with unique keys). -/
def lookupField (d : List (String × JVal)) (k : String) : Option JVal :=
  (d.find? (fun p => p.1 = k)).map (fun p => p.2)

/-- Whether a JSON field value is numeric as `datetime.fromtimestamp`
accepts it.  Python booleans are `int` subclasses and behave as the
numbers 0 and 1, so they fall under `jnum`; every other value raises
`TypeError` there. -/
def jvalIsNum : JVal → Bool
  | JVal.jnum _ => true
  | _ => false

/-- Top-level values `json.loads` can return, as the cache-validation
code can see them.  Numbers are modelled as integers (Python booleans
included, as 0/1; fractional seconds affect no verified property).
Arrays are modelled with scalar elements only: the program never
persists arrays, and an array holding a nested composite raises the
same uncaught `TypeError` from `set()` that a truthy number does. -/
inductive PyValue
  | obj (fields : List (String × JVal))
  | arr (elems : List JVal)
  | str (s : String)
  | num (n : Int)
  | null
deriving Repr, DecidableEq

/-- Python truthiness of a parsed JSON value: empty containers, the
empty string, zero and null are falsy; everything else is truthy. -/
def pyTruthy : PyValue → Bool
  | PyValue.obj fields => ¬ fields.isEmpty
  | PyValue.arr elems => ¬ elems.isEmpty
  | PyValue.str s => s ≠ ""
  | PyValue.num n => n ≠ 0
  | PyValue.null => false

/-- Smallest Unix timestamp `datetime.fromtimestamp(·, UTC)` accepts:
the first second of year 1. -/
def DATETIME_MIN_TS : Int := -62135596800

/-- Largest Unix timestamp `datetime.fromtimestamp(·, UTC)` accepts:
the last second of year 9999. -/
def DATETIME_MAX_TS : Int := 253402300799

/-- Smallest timestamp that converts to the platform (64-bit) time_t
without `OverflowError`. -/
def TIME_T_MIN : Int := -9223372036854775808

/-- Largest timestamp that converts to the platform (64-bit) time_t
without `OverflowError`. -/
def TIME_T_MAX : Int := 9223372036854775807

/-- Embedding of `validate_id_client` (gen_config.py lines 38-58).
`now` is the current Unix time in seconds; `timedelta(minutes=5)` is
300 seconds.  `id_client` is `none` for Python `None`; a falsy parsed
value (`if not id_client`) returns `False`.  On truthy non-dict values
`set(id_client)` raises an uncaught `TypeError` for numbers (and
booleans), while truthy strings and arrays of scalars pass `set()` but
can never satisfy the check without raising: a string's elements are
single characters, and an array either lacks the required key strings
or reaches `id_client["clientSecretExpiresAt"]`, whose `TypeError`
(list index) the `except` clause catches.  For a dict with all three
keys, `datetime.fromtimestamp(t, UTC)` on a numeric `t` succeeds for
years 1-9999 ([`DATETIME_MIN_TS`, `DATETIME_MAX_TS`]); beyond that but
within the platform time range it raises an exception NOT in the
`except (TypeError, OverflowError)` tuple (`ValueError` near the range,
`OSError` past the C library's year range), modelled as one uncaught
error value; outside [`TIME_T_MIN`, `TIME_T_MAX`] it raises
`OverflowError`, which is caught and yields `False`.  A non-numeric
expiry raises a caught `TypeError`, yielding `False`. -/
def validate_id_client (now : Int) (id_client : Option PyValue) :
    Except String Bool :=
  match id_client with
  | none => Except.ok false
  | some v =>
    if pyTruthy v then
      match v with
      | PyValue.num _ => Except.error "TypeError: object is not iterable"
      | PyValue.str _ => Except.ok false
      | PyValue.arr _ => Except.ok false
      | PyValue.null => Except.ok false
      | PyValue.obj d =>
        if ["clientId", "clientSecret", "clientSecretExpiresAt"].all
            (fun k => (lookupField d k).isSome) then
          match lookupField d "clientSecretExpiresAt" with
          | some (JVal.jnum t) =>
            if t < TIME_T_MIN ∨ TIME_T_MAX < t then
              Except.ok false
            else if t < DATETIME_MIN_TS ∨ DATETIME_MAX_TS < t then
              Except.error "ValueError: timestamp out of range for datetime"
            else
              Except.ok (decide (now + 300 < t))
          | _ => Except.ok false
        else
          Except.ok false
    else
      Except.ok false

/-- Outcome of `register_id_client`: the call either raises (an
uncaught exception escapes to the caller), registers a fresh client, or
returns the cached one. -/
inductive RegResult
  | raises (msg : String)
  | fresh (client : List (String × JVal))
  | cached (client : PyValue)
deriving Repr, DecidableEq

/-- Embedding of `register_id_client` (gen_config.py lines 61-87).
`saved` models `keyring.get_password` composed with `json.loads`:
`none` when the stored value is falsy (absent or empty, so that
`saved_client and json.loads(saved_client)` short-circuits),
`some (Except.error e)` when `json.loads` raises `JSONDecodeError e`
(which the source does not catch), and `some (Except.ok v)` when the
stored string decodes to the JSON value `v` — of any shape, object or
not.  An exception escaping `validate_id_client` propagates here too.
`freshClient` is the response of `oidc_client.register_client`. -/
def register_id_client (now : Int)
    (saved : Option (Except String PyValue))
    (freshClient : List (String × JVal)) : RegResult :=
  match saved with
  | none => RegResult.fresh freshClient
  | some (Except.error e) => RegResult.raises e
  | some (Except.ok v) =>
    match validate_id_client now (some v) with
    | Except.error e => RegResult.raises e
    | Except.ok true => RegResult.cached v
    | Except.ok false => RegResult.fresh freshClient

/-- Replace, left to right and non-overlapping, every occurrence of the
non-empty pattern `pat` in the remaining input by `repl`; `fuel` bounds
the number of positions inspected and is instantiated with the input
length. -/
def replaceAux (pat repl : List Char) : Nat → List Char → List Char
  | _, [] => []
  | 0, s => s
  | fuel + 1, c :: cs =>
    if pat ≠ [] ∧ (c :: cs).take pat.length = pat then
      repl ++ replaceAux pat repl fuel ((c :: cs).drop pat.length)
    else
      c :: replaceAux pat repl fuel cs

/-- Models `re.sub pattern repl s` for the patterns this program ever
feeds it in the verified properties: literal, non-empty strings free of
regex metacharacters and of backreference syntax in the replacement,
where `re.sub` coincides with plain leftmost non-overlapping
replace-all. -/
def reSub (pattern repl s : String) : String :=
  String.mk (replaceAux pattern.data repl.data s.data.length s.data)

/-- CPython `dict.update(dict.fromkeys m)` acting on the ordered key
list `d`: keys of `m` are appended in order unless already present
(already-present keys keep their position). -/
def dictKeysUpdate (d : List String) (ks : List String) : List String :=
  ks.foldl (fun acc k => if acc.contains k then acc else acc ++ [k]) d

/-- Key iteration order of a CPython `ChainMap`: its `iter` builds a
dict by updating with `dict.fromkeys mapping` for each map in *reverse*
order, so the LAST map's keys come first. -/
def chainMapKeys (maps : List (List (String × String))) : List String :=
  maps.reverse.foldl (fun d m => dictKeysUpdate d (m.map Prod.fst)) []

/-- `ChainMap.__getitem__`: search the maps left to right and return the
first binding found. -/
def chainMapGet (maps : List (List (String × String))) (k : String) : Option String :=
  maps.findSome? (fun m => (m.find? (fun p => p.1 = k)).map (fun p => p.2))

/-- `ChainMap.items()`: pairs each key (in `chainMapKeys` order) with
its `chainMapGet` value. -/
def chainMapItems (maps : List (List (String × String))) : List (String × String) :=
  (chainMapKeys maps).filterMap (fun k => (chainMapGet maps k).map (fun v => (k, v)))

/-- The two built-in default replacement rules of `munge_profile_name`. -/
def defaultReplacements : List (String × String) := [("_", "-"), (" ", "-")]

/-- Embedding of `munge_profile_name` (gen_config.py lines 149-162):
build `f"{account_name}-{role_name}"`, then apply every rule of
`ChainMap(regex_replacements or {}, {"_": "-", " ": "-"}).items()` via
`re.sub` in iteration order.  `regex_replacements` is the user dict as
an insertion-ordered association list (`[]` models `None`/`{}`). -/
def munge_profile_name (account_name role_name : String)
    (regex_replacements : List (String × String)) : String :=
  let replacements := chainMapItems [regex_replacements, defaultReplacements]
  replacements.foldl (fun s p => reSub p.1 p.2 s) (account_name ++ "-" ++ role_name)

/-- The substitution order claimed by the spec for `build_name`:
user-supplied replacements first, in the order given, then the two
built-in defaults, skipping a default whose pattern key the user already
supplied. -/
def build_name_claimed (account_name role_name : String)
    (user : List (String × String)) : String :=
  let rules := user ++ defaultReplacements.filter
    (fun p => user.all (fun q => q.1 ≠ p.1))
  rules.foldl (fun s p => reSub p.1 p.2 s) (account_name ++ "-" ++ role_name)

/-- The substitution order the code actually implements, written out
explicitly: first the underscore rule (with the user's replacement value
if the user supplied a rule whose pattern is exactly "_"), then the
space rule (likewise), then the remaining user rules in the order
given. -/
def build_name_actual (account_name role_name : String)
    (user : List (String × String)) : String :=
  let uget := fun (k dflt : String) =>
    ((user.find? (fun p => p.1 = k)).map (fun p => p.2)).getD dflt
  let rules := [("_", uget "_" "-"), (" ", uget " " "-")] ++
    user.filter (fun p => p.1 ≠ "_" ∧ p.1 ≠ " ")
  rules.foldl (fun s p => reSub p.1 p.2 s) (account_name ++ "-" ++ role_name)

/-- Insert `a` into the already-sorted list, after any element `b` with
`le b a`; equal elements therefore keep their relative order, as in
Python's stable sorts. -/
def stableInsert (le : α → α → Bool) (a : α) : List α → List α
  | [] => [a]
  | b :: l => if le b a then b :: stableInsert le a l else a :: b :: l

/-- Models Python's builtin `sorted`: a stable sort by the boolean
comparison `le` (all stable sorts agree, so insertion sort is an exact
model of Timsort's result). -/
def pySorted (le : α → α → Bool) (l : List α) : List α :=
  l.foldl (fun acc a => stableInsert le a acc) []

/-- Lexicographic comparison of character lists by code point. -/
def charListLe : List Char → List Char → Bool
  | [], _ => true
  | _ :: _, [] => false
  | a :: as, b :: bs =>
    if a < b then true
    else if b < a then false
    else charListLe as bs

/-- String comparison as Python compares `str` values: lexicographic by
code point. -/
def strLe (a b : String) : Bool := charListLe a.data b.data

/-- Account record as returned by the directory API (`list_accounts`). -/
structure Account where
  accountId : String
  accountName : String
deriving Repr, DecidableEq

/-- Role record as returned by the directory API
(`list_account_roles`). -/
structure Role where
  roleName : String
  accountId : String
deriving Repr, DecidableEq

/-- The flattened per-(account, role) record built by
`build_config_profiles` for rendering. -/
structure Profile where
  name : String
  account_name : String
  role_name : String
  account_id : String
deriving Repr, DecidableEq

/-- Embedding of `build_config_profiles` (gen_config.py lines 165-175):
iterate the account names of the `account_roles` dict in sorted order,
and within each account its roles sorted by role name, producing one
`Profile` per pair.  The dict is modelled as an association list in
insertion order with unique keys; `sorted(account_roles)` sorts its
keys. -/
def build_config_profiles (account_roles : List (String × List Role))
    (regex_replacements : List (String × String)) : List Profile :=
  (pySorted strLe (account_roles.map Prod.fst)).flatMap (fun account_name =>
    let roles := ((account_roles.find? (fun p => p.1 = account_name)).map
      (fun p => p.2)).getD []
    (pySorted (fun r1 r2 => strLe r1.roleName r2.roleName) roles).map (fun role =>
      { name := munge_profile_name account_name role.roleName regex_replacements
        account_name := account_name
        role_name := role.roleName
        account_id := role.accountId }))

/-- One chunk of a format template: literal text or a `\x7bname\x7d`
placeholder. -/
inductive TmplPart
  | lit (s : String)
  | hole (name : String)
deriving Repr, DecidableEq

/-- Parser for `str.format` templates restricted to the shapes this
program uses: plain named fields without conversions, format specs,
nesting or doubled-brace escapes.  `inHole` says whether we are inside
a placeholder; `acc` is the reversed chunk read so far.  `none` models
the `ValueError` Python raises on an unmatched brace. -/
def parseTemplateAux : Bool → List Char → List Char → Option (List TmplPart)
  | false, acc, [] => some [TmplPart.lit (String.mk acc.reverse)]
  | false, acc, '{' :: rest =>
    (parseTemplateAux true [] rest).map (fun ps => TmplPart.lit (String.mk acc.reverse) :: ps)
  | false, _, '}' :: _ => none
  | false, acc, c :: rest => parseTemplateAux false (c :: acc) rest
  | true, _, [] => none
  | true, acc, '}' :: rest =>
    (parseTemplateAux false [] rest).map (fun ps => TmplPart.hole (String.mk acc.reverse) :: ps)
  | true, acc, c :: rest => parseTemplateAux true (c :: acc) rest

/-- Parse a whole template string. -/
def parseTemplate (s : String) : Option (List TmplPart) :=
  parseTemplateAux false [] s.data

/-- Render parsed template chunks against keyword fields, left to
right as `str.format` substitutes; a placeholder absent from `fields`
is Python's `KeyError`, raised at the leftmost unknown placeholder. -/
def renderParts (parts : List TmplPart) (fields : List (String × String)) :
    Except String String :=
  match parts with
  | [] => pure ""
  | TmplPart.lit s :: rest => (renderParts rest fields).map (fun t => s ++ t)
  | TmplPart.hole nm :: rest =>
    match fields.find? (fun p => p.1 = nm) with
    | some p => (renderParts rest fields).map (fun t => p.2 ++ t)
    | none => Except.error ("KeyError: " ++ nm)

/-- Models `template.format(**fields)` for the restricted template
shapes above: `Except.error` collects both the `ValueError` of a
malformed template and the `KeyError` of an unknown placeholder. -/
def strFormat (template : String) (fields : List (String × String)) :
    Except String String :=
  match parseTemplate template with
  | none => Except.error "ValueError: malformed format string"
  | some parts => renderParts parts fields

/-- Longest common leading run of two character lists (used for the
dedent margin). -/
def commonLead : List Char → List Char → List Char
  | x :: xs, y :: ys => if x = y then x :: commonLead xs ys else []
  | _, _ => []

/-- Split a character list at newline characters. -/
def splitNl : List Char → List (List Char)
  | [] => [[]]
  | c :: cs =>
    if c = '\n' then [] :: splitNl cs
    else
      match splitNl cs with
      | [] => [[c]]
      | l :: ls => (c :: l) :: ls

/-- Rejoin lines with newline characters. -/
def joinNl : List (List Char) → List Char
  | [] => []
  | [l] => l
  | l :: ls => l ++ '\n' :: joinNl ls

/-- True for space or tab. -/
def isBlankChar (c : Char) : Bool := c = ' ' ∨ c = '\t'

/-- A line that holds at least one character that is not space or tab. -/
def lineHasContent (l : List Char) : Bool := l.any (fun c => ¬ isBlankChar c)

/-- Embedding of `textwrap.dedent`: lines of only whitespace are
blanked; the margin is the longest common space-and-tab lead of the
lines with content; when non-empty it is stripped from every line that
starts with it. -/
def dedent (text : String) : String :=
  let lines := (splitNl text.data).map
    (fun l => if l ≠ [] ∧ l.all isBlankChar then [] else l)
  let indents := (lines.filter lineHasContent).map
    (fun l => l.takeWhile isBlankChar)
  let margin :=
    match indents with
    | [] => []
    | i :: is => is.foldl commonLead i
  let strip := fun (l : List Char) =>
    if margin ≠ [] ∧ l.take margin.length = margin then l.drop margin.length else l
  String.mk (joinNl (lines.map strip))

/-- The `DEFAULT_PROFILE_TEMPLATE` literal of gen_config.py
(lines 21-26). -/
def DEFAULT_PROFILE_TEMPLATE : String :=
  "\n    [profile {profile_name}]\n    sso_session = {sso_session}\n    sso_account_id = {account_id}\n    sso_role_name = {role_name}\n"

/-- The `SSO_SESSION_BLOCK` literal of gen_config.py (lines 28-32). -/
def SSO_SESSION_BLOCK : String :=
  "\n    [sso-session {sso_session_name}]\n    sso_start_url = {sso_start_url}\n    sso_region = us-east-1\n"

/-- The built-in placeholder names `format_profile` always passes as
explicit keyword arguments. -/
def builtinFieldNames : List String :=
  ["profile_name", "account_name", "account_id", "role_name", "sso_session"]

/-- Embedding of `format_profile` (gen_config.py lines 178-188).  An
`extra_vars` key equal to a built-in keyword makes the Python call
`template.format(profile_name=..., ..., **extra_vars)` raise
`TypeError: got multiple values for keyword argument` before any
formatting happens; otherwise the template is formatted with the five
built-in fields plus the extras, and the result dedented. -/
def format_profile (template : String) (profile : Profile)
    (sso_session_name : String) (extra_vars : List (String × String)) :
    Except String String :=
  if extra_vars.any (fun p => builtinFieldNames.contains p.1) then
    Except.error "TypeError: format() got multiple values for a keyword argument"
  else
    (strFormat template
      ([("profile_name", profile.name),
        ("account_name", profile.account_name),
        ("account_id", profile.account_id),
        ("role_name", profile.role_name),
        ("sso_session", sso_session_name)] ++ extra_vars)).map dedent

/-- One poll outcome of `oidc_client.create_token`: the provider grants
a token, reports that authorization is still pending
(`AuthorizationPendingException`), or fails with any other error. -/
inductive PollResult
  | pending
  | granted (token : String)
  | failure (err : String)
deriving Repr, DecidableEq

/-- Embedding of the polling loop of `create_access_token`
(gen_config.py lines 90-112).  `polls i` is what the provider answers
to the i-th `create_token` call; `slept` accumulates the seconds spent
in `time.sleep(5)` calls.  The loop has no retry bound, so it is given
explicit `fuel`: `none` means the loop is still polling after `fuel`
polls.  A grant terminates with the token; any non-pending exception
propagates immediately. -/
def create_access_token (polls : Nat → PollResult) :
    Nat → Nat → Nat → Option (Except String String × Nat)
  | 0, _, _ => none
  | fuel + 1, i, slept =>
    match polls i with
    | PollResult.pending => create_access_token polls fuel (i + 1) (slept + 5)
    | PollResult.granted t => some (Except.ok t, slept)
    | PollResult.failure e => some (Except.error e, slept)

/-- The fixed-form start URL the orchestrator derives from a directory
name (gen_config.py line 204). -/
def startUrl (sso_directory : String) : String :=
  "https://" ++ sso_directory ++ ".awsapps.com/start"

/-- The external collaborators of one run, at their interfaces: the
current time, the keyring read combined with `json.loads` (see
`register_id_client`), the `register_client` response, and the three
network steps of each directory (the device-authorization flow as a
whole, account listing, per-account role listing), each of which either
returns data or raises. -/
structure SsoEnv where
  now : Int
  saved_client : Option (Except String PyValue)
  fresh_client : List (String × JVal)
  createAccessToken : String → Except String String
  listAccounts : String → Except String (List Account)
  listRoles : String → Account → Except String (List Role)

/-- Embedding of `get_roles` (gen_config.py lines 125-133): the roles of
one account, as a one-entry dict keyed by account name. -/
def get_roles (env : SsoEnv) (access_token : String) (account : Account) :
    Except String (List (String × List Role)) := do
  let roles ← env.listRoles access_token account
  pure [(account.accountName, roles)]

/-- Python `dict` assignment: overwrite the binding in place if the key
exists, else append it. -/
def dictSet (d : List (String × α)) (k : String) (v : α) : List (String × α) :=
  if d.any (fun p => p.1 = k) then
    d.map (fun p => if p.1 = k then (k, v) else p)
  else
    d ++ [(k, v)]

/-- Python `dict.update`: fold `dictSet` over the new bindings. -/
def dictUpdate (d : List (String × α)) (kvs : List (String × α)) :
    List (String × α) :=
  kvs.foldl (fun acc p => dictSet acc p.1 p.2) d

/-- Embedding of `list_account_roles` (gen_config.py lines 136-146):
one `get_roles` sub-task per account, results merged into one dict; a
failing sub-task makes `future.result()` re-raise, so the whole
enumeration fails.  The thread pool's completion order only permutes
dict insertion order, which `build_config_profiles` later sorts away;
the merge is modelled in submission order. -/
def list_account_roles (env : SsoEnv) (access_token : String)
    (accounts : List Account) : Except String (List (String × List Role)) :=
  accounts.foldlM (fun acc account => do
    let r ← get_roles env access_token account
    pure (dictUpdate acc r)) []

/-- The per-directory body of the orchestrator's loop (gen_config.py
lines 203-223): obtain a token for the directory's start URL, list
accounts, list roles, build profiles, and return the rendered session
block followed by the rendered profile blocks. -/
def directoryBlocks (env : SsoEnv) (profile_template : String)
    (regex_replacements : List (String × String))
    (extra_vars : List (String × String)) (sso_directory : String) :
    Except String (List String) := do
  let sso_start_url := startUrl sso_directory
  let access_token ← env.createAccessToken sso_start_url
  let accounts ← env.listAccounts access_token
  let account_roles ← list_account_roles env access_token accounts
  let profiles := build_config_profiles account_roles regex_replacements
  let session_block ← (strFormat SSO_SESSION_BLOCK
    [("sso_session_name", sso_directory), ("sso_start_url", sso_start_url)]).map dedent
  let profile_blocks ← profiles.mapM (fun profile =>
    format_profile (dedent profile_template) profile sso_directory extra_vars)
  pure (session_block :: profile_blocks)

/-- Models `"".join(blocks)`: concatenation of a list of strings. -/
def strJoin : List String → String
  | [] => ""
  | s :: rest => s ++ strJoin rest

/-- The whole text one directory contributes to the output: its session
block immediately followed by its profile blocks. -/
def directoryText (env : SsoEnv) (profile_template : String)
    (regex_replacements : List (String × String))
    (extra_vars : List (String × String)) (sso_directory : String) :
    Except String String :=
  (directoryBlocks env profile_template regex_replacements extra_vars
    sso_directory).map (fun blocks => strJoin blocks)

/-- Embedding of `generate_config_blocks` (gen_config.py lines
191-225): resolve the client registration, then walk the requested
directories in sorted order accumulating each directory's blocks, and
join everything only at the end — so text is returned only on full
success and any uncaught exception aborts the run with no output. -/
def generate_config_blocks (env : SsoEnv) (sso_directories : List String)
    (profile_template : String) (regex_replacements : List (String × String))
    (extra_vars : List (String × String)) : Except String String :=
  match register_id_client env.now env.saved_client env.fresh_client with
  | RegResult.raises e => Except.error e
  | _ => do
    let config_blocks ← (pySorted strLe sso_directories).foldlM
      (fun acc sso_directory => do
        let blocks ← directoryBlocks env profile_template regex_replacements
          extra_vars sso_directory
        pure (acc ++ blocks)) ([] : List String)
    pure (strJoin config_blocks)

/-- The `VALIDATION_FAIL_EXTRAS` message template (gen_config.py line
34) applied to the offending value. -/
def VALIDATION_FAIL_EXTRAS (value : String) : String :=
  "Expected values in the form \x27key=value\x27, got: \x27" ++ value ++ "\x27"

/-- The `VALIDATION_FAIL_REPLACEMENTS` message template (gen_config.py
line 35) applied to the offending value. -/
def VALIDATION_FAIL_REPLACEMENTS (value : String) : String :=
  "Expected values in the form \x27pattern,replacement\x27, got: \x27" ++ value ++ "\x27"

/-- Number of occurrences of the character `c` in `s`, as Python's
`str.count` counts a one-character substring. -/
def countChar (s : String) (c : Char) : Nat :=
  (s.data.filter (fun x => x = c)).length

/-- Python `value.split(sep)` for a one-character separator, restricted
to values holding exactly one occurrence: the parts before and after
it. -/
def splitOnceAt (c : Char) (s : String) : String × String :=
  (String.mk (s.data.takeWhile (fun x => x ≠ c)),
   String.mk ((s.data.dropWhile (fun x => x ≠ c)).drop 1))

/-- Embedding of `validate_extras` (gen_config.py lines 228-232): the
first entry without exactly one `=` raises `click.BadParameter` with
the message naming it; otherwise the entries are split into a dict. -/
def validate_extras (value : List String) :
    Except String (List (String × String)) :=
  match value.find? (fun v => countChar v '=' ≠ 1) with
  | some v => Except.error (VALIDATION_FAIL_EXTRAS v)
  | none =>
    Except.ok (dictUpdate [] (value.map (fun v => splitOnceAt '=' v)))

/-- Embedding of `validate_replacements` (gen_config.py lines 235-239):
the first entry without exactly one `,` raises `click.BadParameter`
with the message naming it; otherwise the entries are split into a
dict. -/
def validate_replacements (value : List String) :
    Except String (List (String × String)) :=
  match value.find? (fun v => countChar v ',' ≠ 1) with
  | some v => Except.error (VALIDATION_FAIL_REPLACEMENTS v)
  | none =>
    Except.ok (dictUpdate [] (value.map (fun v => splitOnceAt ',' v)))

/-- Embedding of the `cli` command (gen_config.py lines 242-296) at the
point the claims speak about: click runs the option callbacks
(`validate_extras`, `validate_replacements`) while parsing arguments —
before `generate_config_blocks` opens any network connection — and a
`BadParameter` aborts the invocation there. -/
def cli (env : SsoEnv) (sso_directories : List String)
    (profile_template : String) (raw_replacements raw_extras : List String) :
    Except String String := do
  let extra_vars ← validate_extras raw_extras
  let regex_replacements ← validate_replacements raw_replacements
  generate_config_blocks env sso_directories profile_template
    regex_replacements extra_vars

/-- A concrete environment in which every external call succeeds: one
account with one role per directory. -/
def envOk : SsoEnv :=
  ⟨0, none, [],
    fun _ => Except.ok "tok",
    fun _ => Except.ok [⟨"111", "Acme"⟩],
    fun _ a => Except.ok [⟨"Admin", a.accountId⟩]⟩

/-- A concrete environment identical to `envOk` except that every
role-listing call fails. -/
def envRoleFail : SsoEnv :=
  ⟨0, none, [],
    fun _ => Except.ok "tok",
    fun _ => Except.ok [⟨"111", "Acme"⟩],
    fun _ _ => Except.error "role listing failed"⟩

/-- Lexicographic order on profiles: by account name first, then by
role name. -/
def profileLe (p q : Profile) : Prop :=
  strLe p.account_name q.account_name = true
    ∧ (p.account_name = q.account_name → strLe p.role_name q.role_name = true)

/-! ### Helper lemmas -/

theorem strJoin_append (a b : List String) :
    strJoin (a ++ b) = strJoin a ++ strJoin b := by
  induction a with
  | nil => simp [strJoin, String.empty_append]
  | cons x xs ih => simp [strJoin, ih, String.append_assoc]

theorem lookupField_nil (k : String) : lookupField [] k = none := rfl

/-! ### C3: validity check of a cached registration -/

theorem validate_id_client_obj (now : Int) (d : List (String × JVal)) :
    validate_id_client now (some (PyValue.obj d)) =
      if ["clientId", "clientSecret", "clientSecretExpiresAt"].all
          (fun k => (lookupField d k).isSome) then
        match lookupField d "clientSecretExpiresAt" with
        | some (JVal.jnum t) =>
          if t < TIME_T_MIN ∨ TIME_T_MAX < t then Except.ok false
          else if t < DATETIME_MIN_TS ∨ DATETIME_MAX_TS < t then
            Except.error "ValueError: timestamp out of range for datetime"
          else Except.ok (decide (now + 300 < t))
        | _ => Except.ok false
      else Except.ok false := by
  cases d with
  | nil => rfl
  | cons p rest => rfl

/-- C2 counterexample.  A persisted secret-store value that is not
parsable as JSON is NOT downgraded to a cache miss: `json.loads` is
called outside any try block, so the decode error propagates to the
caller instead of triggering a fresh registration. -/
theorem register_id_client_unparsable_raises :
    register_id_client 0 (some (Except.error "Expecting value: line 1 column 1 (char 0)")) []
      = RegResult.raises "Expecting value: line 1 column 1 (char 0)" := rfl

/-- C2 amended.  A persisted value that parses as JSON and fails
validation without raising is treated as a cache miss — a fresh client
is registered and no error reaches the caller: so for an object missing
a required field, an object with a non-numeric expiry (caught
TypeError), an object with a numeric expiry beyond the platform time
range (caught OverflowError), and an absent or falsy value.  But an
unparsable value raises the JSON decode error, and a value parsing to a
truthy number raises an uncaught TypeError from the required-key
check (as does, for objects with all fields, a numeric expiry past
datetime's year range but inside the platform time range, per the
validity-check characterization). -/
theorem register_id_client_cache_miss (now : Int)
    (d : List (String × JVal)) (freshClient : List (String × JVal)) :
    (¬ (["clientId", "clientSecret", "clientSecretExpiresAt"].all
          (fun k => (lookupField d k).isSome)) = true →
      register_id_client now (some (Except.ok (PyValue.obj d))) freshClient
        = RegResult.fresh freshClient)
      ∧ (∀ u, lookupField d "clientSecretExpiresAt" = some u →
        jvalIsNum u = false →
        register_id_client now (some (Except.ok (PyValue.obj d))) freshClient
          = RegResult.fresh freshClient)
      ∧ (∀ t : Int, lookupField d "clientSecretExpiresAt" = some (JVal.jnum t) →
        (t < TIME_T_MIN ∨ TIME_T_MAX < t) →
        register_id_client now (some (Except.ok (PyValue.obj d))) freshClient
          = RegResult.fresh freshClient)
      ∧ register_id_client now none freshClient = RegResult.fresh freshClient
      ∧ (∀ n : Int, n ≠ 0 →
        ∃ e, register_id_client now (some (Except.ok (PyValue.num n))) freshClient
          = RegResult.raises e) := by
  have hreg : ∀ v, validate_id_client now (some v) = Except.ok false →
      register_id_client now (some (Except.ok v)) freshClient
        = RegResult.fresh freshClient := by
    intro v h
    simp [register_id_client, h]
  refine ⟨?_, ?_, ?_, rfl, ?_⟩
  · intro hall
    refine hreg _ ?_
    rw [validate_id_client_obj, if_neg hall]
  · intro u hlook hu
    refine hreg _ ?_
    rw [validate_id_client_obj]
    by_cases hall : (["clientId", "clientSecret", "clientSecretExpiresAt"].all
        (fun k => (lookupField d k).isSome)) = true
    · rw [if_pos hall, hlook]
      cases u with
      | jnum t => simp [jvalIsNum] at hu
      | jstr sv => rfl
      | jnull => rfl
    · rw [if_neg hall]
  · intro t hlook hTT
    refine hreg _ ?_
    rw [validate_id_client_obj]
    by_cases hall : (["clientId", "clientSecret", "clientSecretExpiresAt"].all
        (fun k => (lookupField d k).isSome)) = true
    · rw [if_pos hall, hlook]
      show (if t < TIME_T_MIN ∨ TIME_T_MAX < t then Except.ok false
        else if t < DATETIME_MIN_TS ∨ DATETIME_MAX_TS < t then
          Except.error "ValueError: timestamp out of range for datetime"
        else Except.ok (decide (now + 300 < t))) = Except.ok false
      rw [if_pos hTT]
    · rw [if_neg hall]
  · intro n hn
    have hval : validate_id_client now (some (PyValue.num n))
        = Except.error "TypeError: object is not iterable" := by
      simp [validate_id_client, pyTruthy, hn]
    exact ⟨"TypeError: object is not iterable",
      by simp [register_id_client, hval]⟩

/-- C2 witness: an object with a string expiry and a missing
clientSecret registers fresh with no error at time 0, while the scalar
JSON value 5 — parsable, missing every field — raises instead of
registering fresh. -/
theorem register_id_client_cache_miss_witness :
    register_id_client 0 (some (Except.ok (PyValue.obj
        [("clientId", JVal.jstr "abc"),
          ("clientSecretExpiresAt", JVal.jstr "soon")]))) []
        = RegResult.fresh []
      ∧ ∃ e, register_id_client 0 (some (Except.ok (PyValue.num 5))) []
          = RegResult.raises e :=
  ⟨(register_id_client_cache_miss 0
      [("clientId", JVal.jstr "abc"), ("clientSecretExpiresAt", JVal.jstr "soon")]
      []).2.1 (JVal.jstr "soon") (by decide) (by decide),
    (register_id_client_cache_miss 0 [] []).2.2.2.2 5 (by decide)⟩

/-! ### C10: extra variables can never shadow built-in fields -/

/-- C10.  An extra-variables mapping holding a key equal to one of the
built-in placeholder names makes `format_profile` raise: the built-in
keyword and the expanded extra variable are duplicate keyword arguments
to `str.format`, so user extras can never override built-in values,
whatever the template. -/
theorem format_profile_duplicate_keyword (template : String)
    (profile : Profile) (sso_session_name : String)
    (extra_vars : List (String × String)) (k v : String)
    (hmem : (k, v) ∈ extra_vars) (hbuiltin : k ∈ builtinFieldNames) :
    format_profile template profile sso_session_name extra_vars
      = Except.error "TypeError: format() got multiple values for a keyword argument" := by
  have hany : extra_vars.any (fun p => builtinFieldNames.contains p.1) = true := by
    refine List.any_eq_true.mpr ⟨(k, v), hmem, ?_⟩
    simpa [List.contains] using List.elem_eq_true_of_mem hbuiltin
  unfold format_profile
  rw [hany]
  simp

/-- C10 witness: an extra variable named profile_name is rejected even
for a template that never mentions it. -/
theorem format_profile_duplicate_keyword_witness :
    format_profile "hello" ⟨"p", "a", "r", "1"⟩ "sess" [("profile_name", "zz")]
      = Except.error "TypeError: format() got multiple values for a keyword argument" :=
  format_profile_duplicate_keyword "hello" ⟨"p", "a", "r", "1"⟩ "sess"
    [("profile_name", "zz")] "profile_name" "zz" (by decide) (by decide)

/-! ### C9: CLI option validation -/

/-- C9.  An extra-variable entry is rejected exactly when it does not
hold exactly one `=`, a replacement entry exactly when it does not hold
exactly one `,`; the rejection happens in the validation callbacks —
for every environment the CLI returns the validation error without any
network effect — and the error message embeds the offending literal
value verbatim. -/
theorem cli_validation (raw_extras raw_replacements : List String) :
    ((validate_extras raw_extras).isOk = false ↔
        ∃ v ∈ raw_extras, countChar v '=' ≠ 1)
      ∧ ((validate_replacements raw_replacements).isOk = false ↔
        ∃ v ∈ raw_replacements, countChar v ',' ≠ 1)
      ∧ (∀ v, raw_extras.find? (fun w => countChar w '=' ≠ 1) = some v →
        (∀ env sso_directories profile_template,
            cli env sso_directories profile_template raw_replacements raw_extras
              = Except.error (VALIDATION_FAIL_EXTRAS v))
          ∧ ∃ pre post, VALIDATION_FAIL_EXTRAS v = pre ++ v ++ post)
      ∧ (∀ v, (validate_extras raw_extras).isOk = true →
        raw_replacements.find? (fun w => countChar w ',' ≠ 1) = some v →
        (∀ env sso_directories profile_template,
            cli env sso_directories profile_template raw_replacements raw_extras
              = Except.error (VALIDATION_FAIL_REPLACEMENTS v))
          ∧ ∃ pre post, VALIDATION_FAIL_REPLACEMENTS v = pre ++ v ++ post) := by
  refine ⟨?_, ?_, ?_, ?_⟩
  · cases h : raw_extras.find? (fun w => countChar w '=' ≠ 1) with
    | none =>
      simp only [validate_extras, h, Except.isOk]
      constructor
      · intro hfalse
        cases hfalse
      · rintro ⟨v, hv, hcount⟩
        have := List.find?_eq_none.mp h v hv
        simp at this
        exact absurd this hcount
    | some v =>
      simp only [validate_extras, h, Except.isOk]
      refine iff_of_true rfl ⟨v, List.mem_of_find?_eq_some h, ?_⟩
      have := List.find?_some h
      simpa using this
  · cases h : raw_replacements.find? (fun w => countChar w ',' ≠ 1) with
    | none =>
      simp only [validate_replacements, h, Except.isOk]
      constructor
      · intro hfalse
        cases hfalse
      · rintro ⟨v, hv, hcount⟩
        have := List.find?_eq_none.mp h v hv
        simp at this
        exact absurd this hcount
    | some v =>
      simp only [validate_replacements, h, Except.isOk]
      refine iff_of_true rfl ⟨v, List.mem_of_find?_eq_some h, ?_⟩
      have := List.find?_some h
      simpa using this
  · intro v hfind
    have hval : validate_extras raw_extras = Except.error (VALIDATION_FAIL_EXTRAS v) := by
      unfold validate_extras
      rw [hfind]
    refine ⟨fun env dirs tmpl => ?_,
      "Expected values in the form \x27key=value\x27, got: \x27", "\x27", rfl⟩
    unfold cli
    rw [hval]
    rfl
  · intro v hok hfind
    have hval : validate_replacements raw_replacements
        = Except.error (VALIDATION_FAIL_REPLACEMENTS v) := by
      unfold validate_replacements
      rw [hfind]
    cases hex : validate_extras raw_extras with
    | error e =>
      rw [hex] at hok
      cases hok
    | ok ev =>
      refine ⟨fun env dirs tmpl => ?_,
        "Expected values in the form \x27pattern,replacement\x27, got: \x27", "\x27", rfl⟩
      unfold cli
      rw [hex]
      show validate_replacements raw_replacements >>= _ = _
      rw [hval]
      rfl

/-- C9 witness: the literal "cd" has no equals sign, so the CLI aborts
with the message naming it, in an environment where every network call
would succeed. -/
theorem cli_validation_witness :
    cli envOk ["mydir"] "tmpl" [] ["cd"]
      = Except.error (VALIDATION_FAIL_EXTRAS "cd") :=
  ((cli_validation ["cd"] []).2.2.1 "cd" (by decide)).1 envOk ["mydir"] "tmpl"

/-! ### C7: the device-authorization polling loop -/

/-- C7.  In the polling loop, authorization-pending is the only
retryable outcome: after `k` pending polls (5 seconds of sleep each), a
grant at poll `k` ends the loop with the token, a failure at poll `k`
propagates immediately without further polls, and if every poll is
pending the loop is still running after any number of polls — no retry
bound exists. -/
theorem create_access_token_spec (polls : Nat → PollResult) (k fuel : Nat) :
    ((∀ i, i < k → polls i = PollResult.pending) → k < fuel →
        (∀ t, polls k = PollResult.granted t →
          create_access_token polls fuel 0 0 = some (Except.ok t, 5 * k))
          ∧ ∀ e, polls k = PollResult.failure e →
            create_access_token polls fuel 0 0 = some (Except.error e, 5 * k))
      ∧ ((∀ i, polls i = PollResult.pending) →
        create_access_token polls fuel 0 0 = none) := by
  have key : ∀ (j f i slept : Nat), (∀ m, m < j → polls (i + m) = PollResult.pending) →
      j < f →
      create_access_token polls f i slept
        = match polls (i + j) with
          | PollResult.pending => create_access_token polls (f - j - 1) (i + j + 1) (slept + 5 * j + 5)
          | PollResult.granted t => some (Except.ok t, slept + 5 * j)
          | PollResult.failure e => some (Except.error e, slept + 5 * j) := by
    intro j
    induction j with
    | zero =>
      intro f i slept _ hf
      match f, hf with
      | f + 1, _ =>
        simp only [create_access_token, Nat.add_zero, Nat.mul_zero]
        cases polls i <;> simp [create_access_token]
    | succ j ih =>
      intro f i slept hpend hf
      match f, hf with
      | f + 1, hf =>
        have h0 : polls i = PollResult.pending := by
          simpa using hpend 0 (Nat.succ_pos j)
        have hstep : create_access_token polls (f + 1) i slept
            = create_access_token polls f (i + 1) (slept + 5) := by
          simp [create_access_token, h0]
        rw [hstep, ih f (i + 1) (slept + 5)
          (fun m hm => by
            have := hpend (m + 1) (Nat.succ_lt_succ hm)
            simpa [Nat.add_assoc, Nat.add_comm 1 m] using this)
          (Nat.lt_of_succ_lt_succ hf)]
        have harith1 : i + 1 + j = i + (j + 1) := by omega
        have harith2 : slept + 5 + 5 * j = slept + 5 * (j + 1) := by ring
        have harith3 : f - j - 1 = f + 1 - (j + 1) - 1 := by omega
        rw [harith1, harith2, harith3]
  constructor
  · intro hpend hk
    have h := key k fuel 0 0 (fun m hm => by simpa using hpend m hm) hk
    simp only [Nat.zero_add] at h
    constructor
    · intro t ht
      rw [h, ht]
    · intro e he
      rw [h, he]
  · intro hpend
    have none_key : ∀ (f i slept : Nat),
        create_access_token polls f i slept = none := by
      intro f
      induction f with
      | zero => intro i slept; rfl
      | succ f ih =>
        intro i slept
        simp only [create_access_token, hpend i]
        exact ih (i + 1) (slept + 5)
    exact none_key fuel 0 0

/-- C7 witness: two pending polls then a grant yields the token after
10 seconds of sleeping; an all-pending provider keeps the loop running
past any bound (here 7 polls). -/
theorem create_access_token_spec_witness :
    create_access_token
        (fun i => if i < 2 then PollResult.pending else PollResult.granted "tok") 5 0 0
        = some (Except.ok "tok", 10)
      ∧ create_access_token (fun _ => PollResult.pending) 7 0 0 = none := by
  constructor
  · exact ((create_access_token_spec
      (fun i => if i < 2 then PollResult.pending else PollResult.granted "tok") 2 5).1
      (by decide) (by decide)).1 "tok" (by decide)
  · exact (create_access_token_spec (fun _ => PollResult.pending) 0 7).2 (fun _ => rfl)

/-! ### C8: unknown template placeholders are fatal -/

theorem renderParts_error_of_unknown (parts : List TmplPart)
    (fields : List (String × String)) (n : String)
    (hhole : TmplPart.hole n ∈ parts) (hmiss : ∀ p ∈ fields, p.1 ≠ n) :
    ∃ e, renderParts parts fields = Except.error e := by
  induction parts with
  | nil => cases hhole
  | cons part rest ih =>
    cases part with
    | lit s =>
      have hmem : TmplPart.hole n ∈ rest := by
        rcases List.mem_cons.mp hhole with heq | hm
        · cases heq
        · exact hm
      rcases ih hmem with ⟨e, he⟩
      exact ⟨e, by simp [renderParts, he, Except.map]⟩
    | hole m =>
      cases hfind : fields.find? (fun p => p.1 = m) with
      | none => exact ⟨"KeyError: " ++ m, by simp [renderParts, hfind]⟩
      | some p =>
        have hpm : p.1 = m := by
          have := List.find?_some hfind
          simpa using this
        have hmn : m ≠ n := by
          intro hcontra
          exact hmiss p (List.mem_of_find?_eq_some hfind) (hpm.trans hcontra)
        have hmem : TmplPart.hole n ∈ rest := by
          rcases List.mem_cons.mp hhole with heq | hm
          · cases heq
            exact absurd rfl hmn
          · exact hm
        rcases ih hmem with ⟨e, he⟩
        exact ⟨e, by simp [renderParts, hfind, he, Except.map]⟩

/-- C8.  A profile template that references a placeholder outside the
built-in fields and the supplied extra variables makes rendering that
profile fail with a formatting error; no rendered text is produced for
it. -/
theorem format_profile_unknown_placeholder (template : String)
    (parts : List TmplPart) (n : String) (profile : Profile)
    (sso_session_name : String) (extra_vars : List (String × String))
    (hparse : parseTemplate template = some parts)
    (hhole : TmplPart.hole n ∈ parts)
    (hnotbuiltin : n ∉ builtinFieldNames)
    (hnotextra : ∀ p ∈ extra_vars, p.1 ≠ n) :
    ∃ e, format_profile template profile sso_session_name extra_vars
      = Except.error e := by
  unfold format_profile
  cases hdup : extra_vars.any (fun p => builtinFieldNames.contains p.1) with
  | true =>
    exact ⟨"TypeError: format() got multiple values for a keyword argument",
      by simp⟩
  | false =>
    have hmiss : ∀ p ∈ ([("profile_name", profile.name),
        ("account_name", profile.account_name),
        ("account_id", profile.account_id),
        ("role_name", profile.role_name),
        ("sso_session", sso_session_name)] ++ extra_vars), p.1 ≠ n := by
      simp only [builtinFieldNames, List.mem_cons, List.mem_singleton] at hnotbuiltin
      push_neg at hnotbuiltin
      intro p hp
      rcases List.mem_append.mp hp with h5 | hex
      · simp only [List.mem_cons, List.mem_singleton] at h5
        rcases h5 with rfl | rfl | rfl | rfl | rfl | h0
        · exact fun hc => hnotbuiltin.1 hc.symm
        · exact fun hc => hnotbuiltin.2.1 hc.symm
        · exact fun hc => hnotbuiltin.2.2.1 hc.symm
        · exact fun hc => hnotbuiltin.2.2.2.1 hc.symm
        · exact fun hc => hnotbuiltin.2.2.2.2.1 hc.symm
        · cases h0
      · exact hnotextra p hex
    rcases renderParts_error_of_unknown parts _ n hhole hmiss with ⟨e, he⟩
    refine ⟨e, ?_⟩
    simp only [List.cons_append, List.nil_append] at he
    simp [strFormat, hparse, he, Except.map]

/-- C8 witness: the template referencing only the placeholder `unknown`
fails to render any profile when no extra variable defines it. -/
theorem format_profile_unknown_placeholder_witness :
    ∃ e, format_profile "{unknown}" ⟨"p", "a", "r", "1"⟩ "sess" []
      = Except.error e :=
  format_profile_unknown_placeholder "{unknown}"
    [TmplPart.lit "", TmplPart.hole "unknown", TmplPart.lit ""] "unknown"
    ⟨"p", "a", "r", "1"⟩ "sess" [] (by decide) (by decide) (by decide)
    (fun p hp => absurd hp (List.not_mem_nil p))

/-! ### C1: profile-name munging and replacement order -/

theorem find?_eq_some_of_mem_nodupKeys {β : Type} (l : List (String × β))
    (p : String × β) (hnodup : (l.map Prod.fst).Nodup) (hmem : p ∈ l) :
    l.find? (fun q => q.1 = p.1) = some p := by
  induction l with
  | nil => cases hmem
  | cons q rest ih =>
    simp only [List.map_cons, List.nodup_cons] at hnodup
    rcases List.mem_cons.mp hmem with rfl | hm
    · exact List.find?_cons_of_pos _ (by simp)
    · have hq : (q.1 = p.1) = False := by
        simp only [eq_iff_iff, iff_false]
        intro heq
        exact hnodup.1 (heq ▸ List.mem_map_of_mem Prod.fst hm)
      rw [List.find?_cons_of_neg _ (by simp [hq])]
      exact ih hnodup.2 hm

theorem dictKeysUpdate_eq_append (ks : List String) (h : ks.Nodup) :
    ∀ d : List String,
      dictKeysUpdate d ks = d ++ ks.filter (fun k => !(d.contains k)) := by
  induction ks with
  | nil => intro d; simp [dictKeysUpdate]
  | cons k ks ih =>
    intro d
    obtain ⟨hk, hks⟩ := List.nodup_cons.mp h
    have hunfold : dictKeysUpdate d (k :: ks)
        = dictKeysUpdate (if d.contains k then d else d ++ [k]) ks := rfl
    rw [hunfold]
    by_cases hmem : k ∈ d
    · have hc : d.contains k = true := by simp [List.contains, List.elem_iff, hmem]
      rw [hc, if_pos rfl, ih hks d]
      congr 1
      rw [List.filter_cons]
      simp [List.contains, List.elem_iff, hmem]
    · have hc : d.contains k = false := by simp [List.contains, List.elem_iff, hmem]
      rw [hc]
      simp only [Bool.false_eq_true, if_false]
      rw [ih hks (d ++ [k]), List.filter_cons]
      have hcong : ks.filter (fun x => !((d ++ [k]).contains x))
          = ks.filter (fun x => !(d.contains x)) := by
        refine List.filter_congr ?_
        intro x hx
        have hxk : x ≠ k := fun hco => hk (hco ▸ hx)
        simp [List.contains, List.elem_iff, List.mem_append, hxk]
      rw [hcong]
      simp [List.contains, List.elem_iff, hmem, List.append_assoc]

theorem chainMapGet_user_defaults (user : List (String × String)) (k : String)
    (hdef : defaultReplacements.find? (fun p => p.1 = k) = some (k, "-")) :
    chainMapGet [user, defaultReplacements] k
      = some (((user.find? (fun p => p.1 = k)).map (fun p => p.2)).getD "-") := by
  cases hf : user.find? (fun p => p.1 = k) with
  | some p => simp [chainMapGet, List.findSome?_cons, hf]
  | none => simp [chainMapGet, List.findSome?_cons, hf, hdef]

theorem filterMap_eq_self_of_mem {β : Type} (l : List β) (f : β → Option β)
    (h : ∀ x ∈ l, f x = some x) : l.filterMap f = l := by
  induction l with
  | nil => rfl
  | cons x rest ih =>
    rw [List.filterMap_cons, h x (List.mem_cons_self x rest),
      ih (fun y hy => h y (List.mem_cons_of_mem x hy))]

theorem chainMapItems_user_defaults (user : List (String × String))
    (hnodup : (user.map Prod.fst).Nodup) :
    chainMapItems [user, defaultReplacements]
      = [("_", ((user.find? (fun p => p.1 = "_")).map (fun p => p.2)).getD "-"),
          (" ", ((user.find? (fun p => p.1 = " ")).map (fun p => p.2)).getD "-")]
        ++ user.filter (fun p => p.1 ≠ "_" ∧ p.1 ≠ " ") := by
  have hkeys : chainMapKeys [user, defaultReplacements]
      = dictKeysUpdate ["_", " "] (user.map Prod.fst) := rfl
  unfold chainMapItems
  rw [hkeys, dictKeysUpdate_eq_append (user.map Prod.fst) hnodup ["_", " "],
    List.filterMap_append]
  congr 1
  · simp [List.filterMap_cons, chainMapGet_user_defaults user "_" rfl,
      chainMapGet_user_defaults user " " rfl]
  · rw [List.filter_map, List.filterMap_map]
    have hmain : ∀ p ∈ user.filter (fun p => p.1 ≠ "_" ∧ p.1 ≠ " "),
        ((fun k => (chainMapGet [user, defaultReplacements] k).map (fun v => (k, v)))
          ∘ Prod.fst) p = some p := by
      intro p hp
      have hpu : p ∈ user := (List.mem_filter.mp hp).1
      have hfind : user.find? (fun q => q.1 = p.1) = some p :=
        find?_eq_some_of_mem_nodupKeys user p hnodup hpu
      simp [Function.comp, chainMapGet, List.findSome?_cons, hfind]
    have hfiltereq : user.filter ((fun k => !(["_", " "].contains k)) ∘ Prod.fst)
        = user.filter (fun p => p.1 ≠ "_" ∧ p.1 ≠ " ") := by
      refine List.filter_congr ?_
      intro p _
      by_cases h1 : p.1 = "_" <;> by_cases h2 : p.1 = " " <;>
        simp [List.contains, Function.comp, h1, h2]
    rw [hfiltereq]
    exact filterMap_eq_self_of_mem _ _ hmain

/-- C1 counterexample.  The claimed substitution order (user rules
first, then the non-overridden defaults) disagrees with the code: the
ChainMap iterates the DEFAULT map's keys first, so a user rule whose
replacement introduces an underscore runs after the underscore default
instead of before it. -/
theorem munge_profile_name_order_counterexample :
    munge_profile_name "a" "b" [("a", "_")] = "_-b"
      ∧ build_name_claimed "a" "b" [("a", "_")] = "--b"
      ∧ munge_profile_name "a" "b" [("a", "_")]
          ≠ build_name_claimed "a" "b" [("a", "_")] :=
  ⟨by decide, by decide, by decide⟩

/-- C1 amended.  `munge_profile_name` joins account and role name with
a hyphen and then applies the regex substitutions in ChainMap iteration
order: the underscore default first (with the user's value when the
user supplied the pattern "_"), then the space default (likewise), then
the remaining user rules in the order given; applying the merged rules
for user input {"_": "X"} to the text "a_b c" still yields "aXb-c", and
the default-only case gives "Dev-Team-Admin-Role". -/
theorem munge_profile_name_amended :
    (∀ account_name role_name user, (user.map Prod.fst).Nodup →
      munge_profile_name account_name role_name user
        = build_name_actual account_name role_name user)
      ∧ (chainMapItems [[("_", "X")], defaultReplacements]).foldl
          (fun s p => reSub p.1 p.2 s) "a_b c" = "aXb-c"
      ∧ munge_profile_name "Dev Team" "Admin_Role" [] = "Dev-Team-Admin-Role" := by
  refine ⟨?_, by decide, by decide⟩
  intro account_name role_name user hnodup
  simp only [munge_profile_name, build_name_actual]
  rw [chainMapItems_user_defaults user hnodup]

/-- C1 witness: with the single user rule `("_", "X")` the code and the
amended description agree, and give "aXb-c" for account "a_b", role
"c". -/
theorem munge_profile_name_amended_witness :
    (([("_", "X")] : List (String × String)).map Prod.fst).Nodup
      ∧ munge_profile_name "a_b" "c" [("_", "X")]
          = build_name_actual "a_b" "c" [("_", "X")]
      ∧ munge_profile_name "a_b" "c" [("_", "X")] = "aXb-c" :=
  ⟨by decide, munge_profile_name_amended.1 "a_b" "c" [("_", "X")] (by decide),
    by decide⟩

/-! ### C4 and C6: orchestration, ordering and failure propagation -/

theorem except_bind_error {ε α β : Type} (e : ε) (k : α → Except ε β) :
    (Except.error e >>= k) = Except.error e := rfl

theorem except_bind_ok {ε α β : Type} (a : α) (k : α → Except ε β) :
    (Except.ok a >>= k) = k a := rfl

theorem except_pure_bind {ε α β : Type} (a : α) (k : α → Except ε β) :
    ((pure a : Except ε α) >>= k) = k a := rfl

theorem except_map_error {ε α β : Type} (e : ε) (f : α → β) :
    (Except.error e : Except ε α).map f = Except.error e := rfl

theorem except_map_ok {ε α β : Type} (a : α) (f : α → β) :
    (Except.ok a : Except ε α).map f = Except.ok (f a) := rfl

theorem except_mapM_error_of_mem {α β : Type} (f : α → Except String β) :
    ∀ l : List α, (∃ x ∈ l, ∃ e, f x = Except.error e) →
      ∃ e, l.mapM f = Except.error e := by
  intro l
  induction l with
  | nil =>
    rintro ⟨x, hx, _⟩
    cases hx
  | cons a l ih =>
    rintro ⟨x, hx, e, hfx⟩
    rw [List.mapM_cons]
    cases hfa : f a with
    | error e2 => exact ⟨e2, by rw [except_bind_error]⟩
    | ok b =>
      have hx2 : x ∈ l := by
        rcases List.mem_cons.mp hx with rfl | hm
        · rw [hfa] at hfx
          cases hfx
        · exact hm
      rcases ih ⟨x, hx2, e, hfx⟩ with ⟨e3, h3⟩
      refine ⟨e3, ?_⟩
      rw [except_bind_ok, h3, except_bind_error]

theorem foldlM_blocks_eq (env : SsoEnv) (tmpl : String)
    (rr ev : List (String × String)) :
    ∀ (l : List String) (acc : List String),
      (l.foldlM (fun acc sso_directory => do
          let blocks ← directoryBlocks env tmpl rr ev sso_directory
          pure (acc ++ blocks)) acc).map strJoin
        = (l.mapM (directoryText env tmpl rr ev)).map
            (fun ts => strJoin acc ++ strJoin ts) := by
  intro l
  induction l with
  | nil =>
    intro acc
    rw [List.foldlM_nil, List.mapM_nil]
    show Except.map strJoin (Except.ok acc)
      = Except.map (fun ts => strJoin acc ++ strJoin ts) (Except.ok [])
    rw [except_map_ok, except_map_ok]
    show Except.ok (strJoin acc) = Except.ok (strJoin acc ++ "")
    rw [String.append_empty]
  | cons d l ih =>
    intro acc
    rw [List.foldlM_cons, List.mapM_cons]
    cases hdb : directoryBlocks env tmpl rr ev d with
    | error e =>
      have hdt : directoryText env tmpl rr ev d = Except.error e := by
        unfold directoryText
        rw [hdb, except_map_error]
      rw [hdt, except_bind_error, except_bind_error, except_bind_error,
        except_map_error, except_map_error]
    | ok bs =>
      have hdt : directoryText env tmpl rr ev d = Except.ok (strJoin bs) := by
        unfold directoryText
        rw [hdb, except_map_ok]
      rw [hdt, except_bind_ok, except_bind_ok, except_pure_bind, ih (acc ++ bs)]
      cases hm : l.mapM (directoryText env tmpl rr ev) with
      | error e =>
        rw [except_map_error, except_bind_error, except_map_error]
      | ok ts =>
        rw [except_map_ok, except_bind_ok]
        show _ = Except.map _ (Except.ok (strJoin bs :: ts))
        rw [except_map_ok]
        show Except.ok (strJoin (acc ++ bs) ++ strJoin ts)
          = Except.ok (strJoin acc ++ (strJoin bs ++ strJoin ts))
        rw [strJoin_append, String.append_assoc]

theorem generate_config_blocks_eq (env : SsoEnv) (dirs : List String)
    (tmpl : String) (rr ev : List (String × String)) :
    generate_config_blocks env dirs tmpl rr ev =
      match register_id_client env.now env.saved_client env.fresh_client with
      | RegResult.raises e => Except.error e
      | _ =>
        ((pySorted strLe dirs).mapM (directoryText env tmpl rr ev)).map strJoin := by
  have hbindpure : ∀ r : Except String (List String),
      (r >>= fun cb => (pure (strJoin cb) : Except String String))
        = r.map strJoin := by
    intro r
    cases r <;> rfl
  have harm :
      ((pySorted strLe dirs).foldlM (fun acc sso_directory => do
          let blocks ← directoryBlocks env tmpl rr ev sso_directory
          pure (acc ++ blocks)) ([] : List String)
        >>= fun cb => (pure (strJoin cb) : Except String String))
        = ((pySorted strLe dirs).mapM (directoryText env tmpl rr ev)).map strJoin := by
    rw [hbindpure, foldlM_blocks_eq env tmpl rr ev (pySorted strLe dirs) []]
    cases hm : (pySorted strLe dirs).mapM (directoryText env tmpl rr ev) with
    | error e2 => rw [except_map_error, except_map_error]
    | ok ts =>
      rw [except_map_ok, except_map_ok]
      show Except.ok ("" ++ strJoin ts) = _
      rw [String.empty_append]
  unfold generate_config_blocks
  cases register_id_client env.now env.saved_client env.fresh_client with
  | raises e => rfl
  | fresh c => exact harm
  | cached c => exact harm

theorem stableInsert_perm (le : α → α → Bool) (a : α) :
    ∀ l : List α, (stableInsert le a l).Perm (a :: l) := by
  intro l
  induction l with
  | nil => exact List.Perm.refl _
  | cons b t ih =>
    unfold stableInsert
    cases hle : le b a with
    | true =>
      simp only [if_pos rfl]
      exact (ih.cons b).trans (List.Perm.swap a b t)
    | false =>
      simp only [Bool.false_eq_true, if_false]
      exact List.Perm.refl _

theorem pySorted_perm (le : α → α → Bool) (l : List α) :
    (pySorted le l).Perm l := by
  have key : ∀ (l acc : List α),
      (l.foldl (fun acc a => stableInsert le a acc) acc).Perm (acc ++ l) := by
    intro l
    induction l with
    | nil => intro acc; simp
    | cons a t ih =>
      intro acc
      rw [List.foldl_cons]
      refine (ih (stableInsert le a acc)).trans ?_
      refine (List.Perm.append_right t (stableInsert_perm le a acc)).trans ?_
      exact List.perm_middle.symm.trans (by simp)
  simpa using key l []

theorem mem_pySorted (le : α → α → Bool) (l : List α) (a : α) :
    a ∈ pySorted le l ↔ a ∈ l :=
  (pySorted_perm le l).mem_iff

/-- C4.  `generate_config_blocks` registers one client, then processes
the requested directories in lexicographic sort order, each directory
contributing its session block immediately followed by its profile
blocks (`directoryText`), all joined into one text; and any failing
directory (or a raising registration) makes the whole run return an
error carrying no partial text. -/
theorem generate_config_blocks_spec (env : SsoEnv) (dirs : List String)
    (tmpl : String) (rr ev : List (String × String)) :
    (generate_config_blocks env dirs tmpl rr ev =
      match register_id_client env.now env.saved_client env.fresh_client with
      | RegResult.raises e => Except.error e
      | _ =>
        ((pySorted strLe dirs).mapM (directoryText env tmpl rr ev)).map strJoin)
      ∧ ((∃ d ∈ dirs, ∃ e, directoryText env tmpl rr ev d = Except.error e) →
        ∃ e, generate_config_blocks env dirs tmpl rr ev = Except.error e) := by
  refine ⟨generate_config_blocks_eq env dirs tmpl rr ev, ?_⟩
  rintro ⟨d, hd, e, he⟩
  rw [generate_config_blocks_eq env dirs tmpl rr ev]
  rcases except_mapM_error_of_mem (directoryText env tmpl rr ev)
    (pySorted strLe dirs) ⟨d, (mem_pySorted strLe dirs d).mpr hd, e, he⟩
    with ⟨e2, h2⟩
  cases register_id_client env.now env.saved_client env.fresh_client with
  | raises e3 => exact ⟨e3, rfl⟩
  | fresh c => exact ⟨e2, by rw [h2, except_map_error]⟩
  | cached c => exact ⟨e2, by rw [h2, except_map_error]⟩

/-- C4 witness: with a role-listing failure in the environment, a run
over two directories yields an error and hence no partial text. -/
theorem generate_config_blocks_spec_witness :
    ∃ e, generate_config_blocks envRoleFail ["zeta", "alpha"]
      DEFAULT_PROFILE_TEMPLATE [] [] = Except.error e :=
  (generate_config_blocks_spec envRoleFail ["zeta", "alpha"]
    DEFAULT_PROFILE_TEMPLATE [] []).2
    ⟨"alpha", by decide, "role listing failed", rfl⟩

theorem except_foldlM_roles_error (env : SsoEnv) (access_token : String) :
    ∀ (accounts : List Account) (acc : List (String × List Role)),
      (∃ a ∈ accounts, ∃ e, env.listRoles access_token a = Except.error e) →
      ∃ e, accounts.foldlM (fun acc account => do
          let r ← get_roles env access_token account
          pure (dictUpdate acc r)) acc = Except.error e := by
  intro accounts
  induction accounts with
  | nil =>
    rintro acc ⟨a, ha, _⟩
    cases ha
  | cons a0 rest ih =>
    rintro acc ⟨a, ha, e, he⟩
    rw [List.foldlM_cons]
    cases hr : env.listRoles access_token a0 with
    | error e2 =>
      refine ⟨e2, ?_⟩
      have hg : get_roles env access_token a0 = Except.error e2 := by
        unfold get_roles
        rw [hr, except_bind_error]
      rw [hg, except_bind_error, except_bind_error]
    | ok roles =>
      have ha2 : a ∈ rest := by
        rcases List.mem_cons.mp ha with rfl | hm
        · rw [hr] at he
          cases he
        · exact hm
      rcases ih (dictUpdate acc [(a0.accountName, roles)]) ⟨a, ha2, e, he⟩
        with ⟨e3, h3⟩
      refine ⟨e3, ?_⟩
      have hg : get_roles env access_token a0
          = Except.ok [(a0.accountName, roles)] := by
        unfold get_roles
        rw [hr, except_bind_ok]
        rfl
      rw [hg, except_bind_ok, except_pure_bind, h3]

/-- C6.  If listing roles fails for any one account, the whole
role-enumeration for the directory fails with an error instead of a
partial mapping; and a directory whose role enumeration fails this way
makes the entire `generate_config_blocks` run return an error, so no
profile blocks of that directory reach the output. -/
theorem list_account_roles_failure (env : SsoEnv) (access_token : String)
    (accounts : List Account) :
    ((∃ a ∈ accounts, ∃ e, env.listRoles access_token a = Except.error e) →
      ∃ e, list_account_roles env access_token accounts = Except.error e)
      ∧ ∀ (dirs : List String) (tmpl : String) (rr ev : List (String × String))
          (d : String), d ∈ dirs →
          env.createAccessToken (startUrl d) = Except.ok access_token →
          env.listAccounts access_token = Except.ok accounts →
          (∃ a ∈ accounts, ∃ e, env.listRoles access_token a = Except.error e) →
          ∃ e, generate_config_blocks env dirs tmpl rr ev = Except.error e := by
  constructor
  · intro h
    exact except_foldlM_roles_error env access_token accounts [] h
  · intro dirs tmpl rr ev d hd htok hacc h
    rcases except_foldlM_roles_error env access_token accounts [] h with ⟨e, he⟩
    have hlar : list_account_roles env access_token accounts = Except.error e := he
    have hdt : directoryText env tmpl rr ev d = Except.error e := by
      simp only [directoryText, directoryBlocks]
      rw [htok, except_bind_ok, hacc, except_bind_ok, hlar, except_bind_error,
        except_map_error]
    rcases except_mapM_error_of_mem (directoryText env tmpl rr ev)
      (pySorted strLe dirs) ⟨d, (mem_pySorted strLe dirs d).mpr hd, e, hdt⟩
      with ⟨e2, h2⟩
    rw [generate_config_blocks_eq env dirs tmpl rr ev]
    cases register_id_client env.now env.saved_client env.fresh_client with
    | raises e3 => exact ⟨e3, rfl⟩
    | fresh c => exact ⟨e2, by rw [h2, except_map_error]⟩
    | cached c => exact ⟨e2, by rw [h2, except_map_error]⟩

/-- C6 witness: one account whose role listing fails makes the whole
enumeration return an error. -/
theorem list_account_roles_failure_witness :
    ∃ e, list_account_roles envRoleFail "tok" [⟨"111", "Acme"⟩]
      = Except.error e :=
  (list_account_roles_failure envRoleFail "tok" [⟨"111", "Acme"⟩]).1
    ⟨⟨"111", "Acme"⟩, by decide, "role listing failed", rfl⟩

/-! ### C5: profiles are sorted by account name then role name -/

theorem charListLe_refl : ∀ l : List Char, charListLe l l = true := by
  intro l
  induction l with
  | nil => rfl
  | cons c t ih => simp [charListLe, lt_irrefl, ih]

theorem charListLe_total : ∀ a b : List Char,
    charListLe a b = true ∨ charListLe b a = true := by
  intro a
  induction a with
  | nil => intro b; left; rfl
  | cons x as ih =>
    intro b
    cases b with
    | nil => right; rfl
    | cons y bs =>
      rcases lt_trichotomy x y with hlt | heq | hgt
      · left; simp [charListLe, hlt]
      · subst heq
        rcases ih bs with h | h
        · left; simp [charListLe, lt_irrefl, h]
        · right; simp [charListLe, lt_irrefl, h]
      · right; simp [charListLe, hgt]

theorem charListLe_trans : ∀ a b c : List Char,
    charListLe a b = true → charListLe b c = true → charListLe a c = true := by
  intro a
  induction a with
  | nil => intro b c _ _; rfl
  | cons x as ih =>
    intro b c hab hbc
    cases b with
    | nil => cases hab
    | cons y bs =>
      cases c with
      | nil => cases hbc
      | cons z cs =>
        rcases lt_trichotomy x y with hxy | hxy | hxy
        · rcases lt_trichotomy y z with hyz | hyz | hyz
          · simp [charListLe, lt_trans hxy hyz]
          · subst hyz
            simp [charListLe, hxy]
          · exfalso
            simp [charListLe, asymm hyz, hyz] at hbc
        · subst hxy
          rcases lt_trichotomy x z with hyz | hyz | hyz
          · simp [charListLe, hyz]
          · subst hyz
            have hab2 : charListLe as bs = true := by
              simpa [charListLe, lt_irrefl] using hab
            have hbc2 : charListLe bs cs = true := by
              simpa [charListLe, lt_irrefl] using hbc
            simpa [charListLe, lt_irrefl] using ih bs cs hab2 hbc2
          · exfalso
            simp [charListLe, asymm hyz, hyz] at hbc
        · exfalso
          simp [charListLe, asymm hxy, hxy] at hab

theorem charListLe_antisymm : ∀ a b : List Char,
    charListLe a b = true → charListLe b a = true → a = b := by
  intro a
  induction a with
  | nil =>
    intro b _ hba
    cases b with
    | nil => rfl
    | cons y bs => cases hba
  | cons x as ih =>
    intro b hab hba
    cases b with
    | nil => cases hab
    | cons y bs =>
      rcases lt_trichotomy x y with hxy | hxy | hxy
      · exfalso
        simp [charListLe, asymm hxy, hxy] at hba
      · subst hxy
        have hab2 : charListLe as bs = true := by
          simpa [charListLe, lt_irrefl] using hab
        have hba2 : charListLe bs as = true := by
          simpa [charListLe, lt_irrefl] using hba
        rw [ih bs hab2 hba2]
      · exfalso
        simp [charListLe, asymm hxy, hxy] at hab

theorem strLe_refl (a : String) : strLe a a = true := charListLe_refl a.data

theorem strLe_total (a b : String) : strLe a b = true ∨ strLe b a = true :=
  charListLe_total a.data b.data

theorem strLe_trans (a b c : String) :
    strLe a b = true → strLe b c = true → strLe a c = true :=
  charListLe_trans a.data b.data c.data

theorem strLe_antisymm (a b : String)
    (h1 : strLe a b = true) (h2 : strLe b a = true) : a = b := by
  have hd : a.data = b.data := charListLe_antisymm a.data b.data h1 h2
  cases a
  cases b
  exact congrArg String.mk hd

theorem pairwise_stableInsert (le : α → α → Bool)
    (htrans : ∀ a b c, le a b = true → le b c = true → le a c = true)
    (htotal : ∀ a b, le a b = true ∨ le b a = true) (a : α) :
    ∀ l : List α, l.Pairwise (fun x y => le x y = true) →
      (stableInsert le a l).Pairwise (fun x y => le x y = true) := by
  intro l
  induction l with
  | nil =>
    intro _
    simp [stableInsert]
  | cons b t ih =>
    intro hl
    rcases List.pairwise_cons.mp hl with ⟨hb, ht⟩
    unfold stableInsert
    cases hle : le b a with
    | true =>
      simp only [if_pos rfl]
      refine List.pairwise_cons.mpr ⟨?_, ih ht⟩
      intro y hy
      have hy2 : y ∈ a :: t := (stableInsert_perm le a t).mem_iff.mp hy
      rcases List.mem_cons.mp hy2 with rfl | hyt
      · exact hle
      · exact hb y hyt
    | false =>
      simp only [Bool.false_eq_true, if_false]
      have hab : le a b = true := by
        rcases htotal a b with h | h
        · exact h
        · simp [hle] at h
      refine List.pairwise_cons.mpr ⟨?_, hl⟩
      intro y hy
      rcases List.mem_cons.mp hy with rfl | hyt
      · exact hab
      · exact htrans a b y hab (hb y hyt)

theorem pairwise_pySorted (le : α → α → Bool)
    (htrans : ∀ a b c, le a b = true → le b c = true → le a c = true)
    (htotal : ∀ a b, le a b = true ∨ le b a = true) (l : List α) :
    (pySorted le l).Pairwise (fun x y => le x y = true) := by
  have key : ∀ (l acc : List α), acc.Pairwise (fun x y => le x y = true) →
      (l.foldl (fun acc a => stableInsert le a acc) acc).Pairwise
        (fun x y => le x y = true) := by
    intro l
    induction l with
    | nil =>
      intro acc h
      simpa using h
    | cons a t ih =>
      intro acc h
      rw [List.foldl_cons]
      exact ih _ (pairwise_stableInsert le htrans htotal a acc h)
  exact key l [] List.Pairwise.nil

theorem find?_eq_of_perm_nodupKeys {β : Type} (l1 l2 : List (String × β))
    (k : String) (hperm : l1.Perm l2) (hnodup : (l1.map Prod.fst).Nodup) :
    l1.find? (fun q => q.1 = k) = l2.find? (fun q => q.1 = k) := by
  cases h1 : l1.find? (fun q => q.1 = k) with
  | some p =>
    have hp1 : p.1 = k := by simpa using List.find?_some h1
    have hnodup2 : (l2.map Prod.fst).Nodup := (hperm.map Prod.fst).nodup hnodup
    have hmem2 : p ∈ l2 := hperm.mem_iff.mp (List.mem_of_find?_eq_some h1)
    have h2 := find?_eq_some_of_mem_nodupKeys l2 p hnodup2 hmem2
    rw [hp1] at h2
    rw [h2]
  | none =>
    cases h2 : l2.find? (fun q => q.1 = k) with
    | none => rfl
    | some p =>
      have hmem1 : p ∈ l1 := hperm.mem_iff.mpr (List.mem_of_find?_eq_some h2)
      have hnp := List.find?_eq_none.mp h1 p hmem1
      have hp1 : p.1 = k := by simpa using List.find?_some h2
      simp [hp1] at hnp

/-- C5.  The Profile sequence built for rendering is sorted by account
name first and role name second; it does not depend on the insertion
order of the account-to-roles mapping (only on its contents); and the
example mapping {"B": [x], "A": [y, x]} yields profiles A/x, A/y,
B/x. -/
theorem build_config_profiles_sorted (rr : List (String × String))
    (ar1 ar2 : List (String × List Role)) :
    ((ar1.map Prod.fst).Nodup →
      (build_config_profiles ar1 rr).Pairwise profileLe)
      ∧ (ar1.Perm ar2 → (ar1.map Prod.fst).Nodup →
        build_config_profiles ar1 rr = build_config_profiles ar2 rr)
      ∧ build_config_profiles
          [("B", [⟨"x", "222"⟩]), ("A", [⟨"y", "111"⟩, ⟨"x", "111"⟩])] []
        = [⟨"A-x", "A", "x", "111"⟩, ⟨"A-y", "A", "y", "111"⟩,
            ⟨"B-x", "B", "x", "222"⟩] := by
  refine ⟨?_, ?_, by decide⟩
  · intro hnodup
    unfold build_config_profiles
    rw [List.flatMap_def, List.pairwise_flatten]
    have hksorted := pairwise_pySorted strLe strLe_trans strLe_total
      (ar1.map Prod.fst)
    have hknodup : (pySorted strLe (ar1.map Prod.fst)).Nodup :=
      (pySorted_perm strLe (ar1.map Prod.fst)).symm.nodup hnodup
    constructor
    · intro gl hgl
      rcases List.mem_map.mp hgl with ⟨key, hkey, rfl⟩
      simp only [List.pairwise_map]
      have hroles := pairwise_pySorted
        (fun r1 r2 => strLe r1.roleName r2.roleName)
        (fun a b c => strLe_trans a.roleName b.roleName c.roleName)
        (fun a b => strLe_total a.roleName b.roleName)
        (((ar1.find? (fun p => p.1 = key)).map (fun p => p.2)).getD [])
      refine hroles.imp ?_
      intro r1 r2 hr
      exact ⟨strLe_refl key, fun _ => hr⟩
    · simp only [List.pairwise_map]
      refine (hksorted.and hknodup).imp ?_
      intro k1 k2 hk x hx y hy
      rcases List.mem_map.mp hx with ⟨r1, _, rfl⟩
      rcases List.mem_map.mp hy with ⟨r2, _, rfl⟩
      exact ⟨hk.1, fun heq => (hk.2 heq).elim⟩
  · intro hperm hnodup
    unfold build_config_profiles
    have hkeysperm : (ar1.map Prod.fst).Perm (ar2.map Prod.fst) :=
      hperm.map Prod.fst
    have hsorted_eq : pySorted strLe (ar1.map Prod.fst)
        = pySorted strLe (ar2.map Prod.fst) := by
      have hp : (pySorted strLe (ar1.map Prod.fst)).Perm
          (pySorted strLe (ar2.map Prod.fst)) :=
        (pySorted_perm strLe _).trans
          (hkeysperm.trans (pySorted_perm strLe _).symm)
      haveI : IsAntisymm String (fun a b => strLe a b = true) :=
        ⟨fun a b h1 h2 => strLe_antisymm a b h1 h2⟩
      exact List.eq_of_perm_of_sorted hp
        (pairwise_pySorted strLe strLe_trans strLe_total _)
        (pairwise_pySorted strLe strLe_trans strLe_total _)
    rw [hsorted_eq, List.flatMap_def, List.flatMap_def]
    refine congrArg List.flatten (List.map_congr_left ?_)
    intro k hk
    have hfind : ar1.find? (fun p => p.1 = k) = ar2.find? (fun p => p.1 = k) :=
      find?_eq_of_perm_nodupKeys ar1 ar2 k hperm hnodup
    simp only [hfind]

/-- C5 witness: the example mapping is sorted as claimed, and inserting
its accounts in the opposite order builds the same profiles. -/
theorem build_config_profiles_sorted_witness :
    (build_config_profiles
        [("B", [⟨"x", "222"⟩]), ("A", [⟨"y", "111"⟩, ⟨"x", "111"⟩])]
        []).Pairwise profileLe
      ∧ build_config_profiles
          [("B", [⟨"x", "222"⟩]), ("A", [⟨"y", "111"⟩, ⟨"x", "111"⟩])] []
        = build_config_profiles
          [("A", [⟨"y", "111"⟩, ⟨"x", "111"⟩]), ("B", [⟨"x", "222"⟩])] [] :=
  ⟨(build_config_profiles_sorted []
      [("B", [⟨"x", "222"⟩]), ("A", [⟨"y", "111"⟩, ⟨"x", "111"⟩])] []).1
      (by decide),
    (build_config_profiles_sorted []
      [("B", [⟨"x", "222"⟩]), ("A", [⟨"y", "111"⟩, ⟨"x", "111"⟩])]
      [("A", [⟨"y", "111"⟩, ⟨"x", "111"⟩]), ("B", [⟨"x", "222"⟩])]).2.1
      (List.Perm.swap _ _ _) (by decide)⟩


end GenConfig
